import Mathlib

/-!
Shallow embedding of `src/mc/balancer.py` (`LoadBalancer`) and proofs about it.

Modelling conventions:
* External effects (the `Minio(...)` constructor, the HTTP GET liveness probe,
  `client.list_buckets()`) are abstracted into an `Env` of outcome oracles keyed
  by endpoint address.  Each `Minio(...)` call site gets its own oracle, since
  every invocation of the external constructor may independently raise.
* Timestamps (`datetime.datetime.now(timezone.utc)`) are modelled as an integer
  `now` fixed for the duration of one call; `datetime.timedelta` comparisons
  become integer comparisons.
* Client handles (`Minio` objects) are modelled as opaque `Nat` tokens produced
  by the constructor oracles; `None` becomes `Option.none`.
* Python exceptions that the code catches never escape, so the embedded
  functions are total; the two exceptions `__init__` deliberately raises are an
  explicit `Except` error type.
* `SelectOutcome.attempts` counts loop iterations of `get_client` and
  `SelectOutcome.probes` records each invocation of `_is_server_healthy`
  (address plus whether an existing client was passed); both are ghost
  observations of the control flow, not state the Python code stores.
-/

namespace MC

/-- Outcomes of the external effects, keyed by endpoint address.
`minioCtorInit` is the `Minio(...)` call in `__init__`, `minioCtorTemp` the
`temp_client = Minio(...)` call inside `_is_server_healthy`, `minioCtorRetry`
the `new_client = Minio(...)` call on the retry path of `get_client`
(`none` models the constructor raising).  `httpGet` is keyed by the full
health URL and returns the HTTP status, `none` modelling any exception
(connection error, timeout).  `listBuckets` tells whether
`client.list_buckets()` succeeds for a client of that address. -/
structure Env where
  minioCtorInit : String → Option Nat
  minioCtorTemp : String → Option Nat
  minioCtorRetry : String → Option Nat
  httpGet : String → Option Nat
  listBuckets : String → Bool

/-- `health_url = f"{scheme}://{endpoint_address}/minio/health/live"` with
`scheme = "https" if self.secure else "http"`. -/
def healthUrl (secure : Bool) (address : String) : String :=
  (if secure then "https" else "http") ++ "://" ++ address ++ "/minio/health/live"

/-- `LoadBalancer._is_server_healthy(client, endpoint_address)`.
With `client is None` it first constructs a temporary `Minio` client (returning
`False` if that raises), then issues the GET to the liveness URL and succeeds
iff the status is 200 (any exception gives `False`).  With an existing client
it calls `list_buckets()` and succeeds iff no exception is raised. -/
def isServerHealthy (env : Env) (secure : Bool) (client : Option Nat)
    (addr : String) : Bool :=
  match client with
  | none =>
    match env.minioCtorTemp addr with
    | none => false
    | some _ =>
      match env.httpGet (healthUrl secure addr) with
      | some status => status == 200
      | none => false
  | some _ => env.listBuckets addr

/-- The mutable state of a `LoadBalancer`: the fixed `endpoints` list, the
parallel `clients` and `failures` lists, the round-robin `current_index`,
the configured `unhealthy_retry_timedelta` and the `secure` flag. -/
structure BalancerState where
  endpoints : List String
  clients : List (Option Nat)
  failures : List (Option Int)
  currentIndex : Nat
  retryBackoff : Int
  secure : Bool
deriving Repr, DecidableEq

/-- `len(self.endpoints)`. -/
def BalancerState.n (s : BalancerState) : Nat := s.endpoints.length

/-- The two exceptions `LoadBalancer.__init__` can raise:
`ValueError("Endpoints list cannot be empty.")` and
`Exception("No MinIO servers could be connected to during initialization.")`. -/
inductive InitError where
  | configError
  | noHealthy
deriving Repr, DecidableEq

/-- The body of the per-endpoint initialization loop in `__init__`: construct a
client; on success run the initial health check and either keep the client or
record a failure timestamp; on a constructor exception record a failure
timestamp.  Returns the `(clients[i], failures[i])` pair. -/
def initEndpoint (env : Env) (secure : Bool) (now : Int) (addr : String) :
    Option Nat × Option Int :=
  match env.minioCtorInit addr with
  | some h =>
    if isServerHealthy env secure (some h) addr then (some h, none)
    else (none, some now)
  | none => (none, some now)

/-- `LoadBalancer.__init__`: raise on an empty endpoint list, initialize every
endpoint, then raise if no client could be stored (`if not any(self.clients)`),
and otherwise start with `current_index = 0`. -/
def initBalancer (env : Env) (endpoints : List String) (secure : Bool)
    (retryBackoff : Int) (now : Int) : Except InitError BalancerState :=
  if endpoints.isEmpty then .error .configError
  else
    let pairs := endpoints.map (initEndpoint env secure now)
    let clients := pairs.map Prod.fst
    let failures := pairs.map Prod.snd
    if clients.all Option.isNone then .error .noHealthy
    else .ok ⟨endpoints, clients, failures, 0, retryBackoff, secure⟩

/-- One recorded invocation of `_is_server_healthy`: the probed address and
whether an existing client was passed (`true`) or `None` (`false`). -/
structure Probe where
  addr : String
  viaClient : Bool
deriving Repr, DecidableEq

/-- Outcome of one iteration of the `for` loop in `get_client`:
either a `return current_actual_idx, client` (`selected`), or the `continue`
statement of the unhealthy-existing-client branch which jumps straight to the
next iteration (`skipCheck`), or falling through to the loop-detection `if` at
the bottom of the body (`fallthrough`). -/
inductive StepOut where
  | selected (i : Nat) (c : Nat) (s : BalancerState)
  | skipCheck (s : BalancerState)
  | fallthrough (s : BalancerState)
deriving Repr, DecidableEq

/-- The balancer state carried by a step outcome. -/
def StepOut.state : StepOut → BalancerState
  | .selected _ _ s => s
  | .skipCheck s => s
  | .fallthrough s => s

/-- Whether the step returned a client. -/
def StepOut.isSelected : StepOut → Bool
  | .selected _ _ _ => true
  | _ => false

/-- One iteration of the `for` loop body of `get_client` (everything before the
loop-detection `if`), together with the list of `_is_server_healthy`
invocations it performed.  Mirrors the source line by line:
read `current_actual_idx`, the address and `clients[i]`; advance
`current_index`; then either probe the existing client (healthy: clear the
failure and return; unhealthy: set `failures[i]` only if unset, drop the
client, `continue`), or, with no client, re-probe only when a failure
timestamp exists and `now - failure >= unhealthy_retry_timedelta`
(healthy re-probe: construct a new client and on success store it, clear the
failure and return, on a constructor exception set `failures[i] = now`;
unhealthy re-probe: set `failures[i] = now`). -/
def selectStep (env : Env) (now : Int) (s : BalancerState) :
    StepOut × List Probe :=
  let i := s.currentIndex % s.n
  let addr := s.endpoints.getD i ""
  let clientToCheck := s.clients.getD i none
  let s1 : BalancerState := { s with currentIndex := (s.currentIndex + 1) % s.n }
  match clientToCheck with
  | some c =>
    if isServerHealthy env s.secure (some c) addr then
      (.selected i c { s1 with failures := s1.failures.set i none }, [⟨addr, true⟩])
    else
      let failures :=
        if (s1.failures.getD i none).isNone then s1.failures.set i (some now)
        else s1.failures
      (.skipCheck { s1 with failures := failures, clients := s1.clients.set i none },
        [⟨addr, true⟩])
  | none =>
    match s1.failures.getD i none with
    | some f =>
      if s.retryBackoff ≤ now - f then
        if isServerHealthy env s.secure none addr then
          match env.minioCtorRetry addr with
          | some h =>
            (.selected i h
              { s1 with clients := s1.clients.set i (some h),
                        failures := s1.failures.set i none }, [⟨addr, false⟩])
          | none =>
            (.fallthrough { s1 with failures := s1.failures.set i (some now) },
              [⟨addr, false⟩])
        else
          (.fallthrough { s1 with failures := s1.failures.set i (some now) },
            [⟨addr, false⟩])
      else (.fallthrough s1, [])
    | none => (.fallthrough s1, [])

/-- The loop-detection guard at the bottom of the loop body:
`all(f is not None and (now - f) < self.unhealthy_retry_timedelta
for f in self.failures)`. -/
def allRecent (now : Int) (s : BalancerState) : Bool :=
  s.failures.all fun f =>
    match f with
    | some t => now - t < s.retryBackoff
    | none => false

/-- Result of a `get_client` call: the returned `(index, client)` pair (or the
`(None, None)` sentinel as `none`), the state after the call, plus the ghost
observations: how many loop iterations ran and which health probes were
issued. -/
structure SelectOutcome where
  result : Option (Nat × Nat)
  state : BalancerState
  attempts : Nat
  probes : List Probe
deriving Repr, DecidableEq

/-- The `for _ in range(num_clients)` loop of `get_client`, with the remaining
iteration count as fuel and `start_idx_loop_detection` as `startIdx`.  A
`skipCheck` outcome (the `continue` statement) bypasses the loop-detection
guard; a `fallthrough` outcome runs it and `break`s to the final
`return None, None` when it fires. -/
def getClientAux (env : Env) (now : Int) (startIdx : Nat) :
    Nat → BalancerState → SelectOutcome
  | 0, s => ⟨none, s, 0, []⟩
  | fuel + 1, s =>
    match selectStep env now s with
    | (.selected i c s', ps) => ⟨some (i, c), s', 1, ps⟩
    | (.skipCheck s', ps) =>
      let o := getClientAux env now startIdx fuel s'
      ⟨o.result, o.state, o.attempts + 1, ps ++ o.probes⟩
    | (.fallthrough s', ps) =>
      if s'.currentIndex = startIdx ∧ allRecent now s' = true then ⟨none, s', 1, ps⟩
      else
        let o := getClientAux env now startIdx fuel s'
        ⟨o.result, o.state, o.attempts + 1, ps ++ o.probes⟩

/-- `LoadBalancer.get_client` (the body under `with self.mutex`): the early
`num_clients == 0` return, then at most `num_clients` loop iterations starting
from the remembered `start_idx_loop_detection`, then `return None, None`. -/
def getClient (env : Env) (now : Int) (s : BalancerState) : SelectOutcome :=
  if s.n = 0 then ⟨none, s, 0, []⟩
  else getClientAux env now s.currentIndex s.n s

/-- The state after `k` consecutive `get_client` calls at time `now`. -/
def iterSelect (env : Env) (now : Int) (s : BalancerState) : Nat → BalancerState
  | 0 => s
  | k + 1 => (getClient env now (iterSelect env now s k)).state

/-- Well-formedness: the parallel lists have the endpoint count's length
(guaranteed at construction: `[None] * len(endpoints)`). -/
def WF (s : BalancerState) : Prop :=
  s.clients.length = s.n ∧ s.failures.length = s.n

/-- Health-state exclusivity: at every index exactly one of `clients[i]` and
`failures[i]` is `None`. -/
def Excl (s : BalancerState) : Prop :=
  ∀ i, i < s.n → ((s.clients.getD i none).isSome ↔ s.failures.getD i none = none)

/-- The configuration of a balancer state that `get_client` never changes:
the endpoint list, the `secure` flag, the backoff, and the lengths of the
parallel lists. -/
def SameConfig (s s' : BalancerState) : Prop :=
  s'.endpoints = s.endpoints ∧ s'.secure = s.secure ∧
  s'.retryBackoff = s.retryBackoff ∧
  s'.clients.length = s.clients.length ∧ s'.failures.length = s.failures.length

/-- An environment in which every external call succeeds. -/
def envAllOk : Env :=
  ⟨fun _ => some 1, fun _ => some 2, fun _ => some 3, fun _ => some 200, fun _ => true⟩

/-- An environment in which every external call fails. -/
def envAllDown : Env :=
  ⟨fun _ => none, fun _ => none, fun _ => none, fun _ => none, fun _ => false⟩

/-- An environment in which the temporary client constructor inside
`_is_server_healthy` raises while the liveness GET would return 200. -/
def envCtorFail : Env :=
  ⟨fun _ => some 1, fun _ => none, fun _ => some 3, fun _ => some 200, fun _ => true⟩

/-- An environment in which probes succeed but the retry-path constructor
`new_client = Minio(...)` raises. -/
def envRetryCtorFail : Env :=
  ⟨fun _ => some 1, fun _ => some 2, fun _ => none, fun _ => some 200, fun _ => true⟩

/-- Three endpoints, all holding clients, no failures, cursor 0. -/
def s3 : BalancerState :=
  ⟨["e0", "e1", "e2"], [some 10, some 11, some 12], [none, none, none], 0, 5, false⟩

/-- One endpoint, client absent, failure recorded at time 0, backoff 10. -/
def s1down : BalancerState := ⟨["e0"], [none], [some 0], 0, 10, false⟩

/-- One endpoint holding a client, no failure, backoff 10. -/
def s1up : BalancerState := ⟨["e0"], [some 4], [none], 0, 10, false⟩

section ListLemmas

variable {α : Type _}

lemma getD_set_self (l : List α) (i : Nat) (a d : α) (h : i < l.length) :
    (l.set i a).getD i d = a := by
  simp [List.getD, List.getElem?_set_self', List.getElem?_eq_getElem, h]

lemma getD_set_ne (l : List α) {i j : Nat} (a d : α) (h : i ≠ j) :
    (l.set i a).getD j d = l.getD j d := by
  simp [List.getD, List.getElem?_set_ne h]

end ListLemmas

section StepEquations

variable (env : Env) (now : Int) (s : BalancerState)

lemma selectStep_client_healthy {c : Nat}
    (hc : s.clients.getD (s.currentIndex % s.n) none = some c)
    (hh : isServerHealthy env s.secure (some c)
      (s.endpoints.getD (s.currentIndex % s.n) "") = true) :
    selectStep env now s =
      (.selected (s.currentIndex % s.n) c
        { s with currentIndex := (s.currentIndex + 1) % s.n,
                 failures := s.failures.set (s.currentIndex % s.n) none },
       [⟨s.endpoints.getD (s.currentIndex % s.n) "", true⟩]) := by
  simp only [selectStep]
  rw [hc]
  simp only [List.getD_eq_getElem?_getD] at hh
  simp [hh]

lemma selectStep_client_unhealthy {c : Nat}
    (hc : s.clients.getD (s.currentIndex % s.n) none = some c)
    (hh : isServerHealthy env s.secure (some c)
      (s.endpoints.getD (s.currentIndex % s.n) "") = false) :
    selectStep env now s =
      (.skipCheck
        { s with currentIndex := (s.currentIndex + 1) % s.n,
                 clients := s.clients.set (s.currentIndex % s.n) none,
                 failures :=
                   if (s.failures.getD (s.currentIndex % s.n) none).isNone then
                     s.failures.set (s.currentIndex % s.n) (some now)
                   else s.failures },
       [⟨s.endpoints.getD (s.currentIndex % s.n) "", true⟩]) := by
  simp only [selectStep]
  rw [hc]
  simp only [List.getD_eq_getElem?_getD] at hh
  simp [hh]

lemma selectStep_skip_noFailure
    (hc : s.clients.getD (s.currentIndex % s.n) none = none)
    (hf : s.failures.getD (s.currentIndex % s.n) none = none) :
    selectStep env now s =
      (.fallthrough { s with currentIndex := (s.currentIndex + 1) % s.n }, []) := by
  simp only [selectStep]
  rw [hc, hf]

lemma selectStep_skip_withinBackoff {f : Int}
    (hc : s.clients.getD (s.currentIndex % s.n) none = none)
    (hf : s.failures.getD (s.currentIndex % s.n) none = some f)
    (hb : now - f < s.retryBackoff) :
    selectStep env now s =
      (.fallthrough { s with currentIndex := (s.currentIndex + 1) % s.n }, []) := by
  simp only [selectStep]
  rw [hc, hf]
  simp [not_le.mpr hb]

lemma selectStep_retry_success {f : Int} {h : Nat}
    (hc : s.clients.getD (s.currentIndex % s.n) none = none)
    (hf : s.failures.getD (s.currentIndex % s.n) none = some f)
    (hb : s.retryBackoff ≤ now - f)
    (hh : isServerHealthy env s.secure none
      (s.endpoints.getD (s.currentIndex % s.n) "") = true)
    (hr : env.minioCtorRetry (s.endpoints.getD (s.currentIndex % s.n) "") = some h) :
    selectStep env now s =
      (.selected (s.currentIndex % s.n) h
        { s with currentIndex := (s.currentIndex + 1) % s.n,
                 clients := s.clients.set (s.currentIndex % s.n) (some h),
                 failures := s.failures.set (s.currentIndex % s.n) none },
       [⟨s.endpoints.getD (s.currentIndex % s.n) "", false⟩]) := by
  simp only [selectStep]
  rw [hc, hf]
  simp only [List.getD_eq_getElem?_getD] at hh hr
  simp [hb, hh, hr]

lemma selectStep_retry_probeFail {f : Int}
    (hc : s.clients.getD (s.currentIndex % s.n) none = none)
    (hf : s.failures.getD (s.currentIndex % s.n) none = some f)
    (hb : s.retryBackoff ≤ now - f)
    (hh : isServerHealthy env s.secure none
      (s.endpoints.getD (s.currentIndex % s.n) "") = false) :
    selectStep env now s =
      (.fallthrough
        { s with currentIndex := (s.currentIndex + 1) % s.n,
                 failures := s.failures.set (s.currentIndex % s.n) (some now) },
       [⟨s.endpoints.getD (s.currentIndex % s.n) "", false⟩]) := by
  simp only [selectStep]
  rw [hc, hf]
  simp only [List.getD_eq_getElem?_getD] at hh
  simp [hb, hh]

lemma selectStep_retry_ctorFail {f : Int}
    (hc : s.clients.getD (s.currentIndex % s.n) none = none)
    (hf : s.failures.getD (s.currentIndex % s.n) none = some f)
    (hb : s.retryBackoff ≤ now - f)
    (hh : isServerHealthy env s.secure none
      (s.endpoints.getD (s.currentIndex % s.n) "") = true)
    (hr : env.minioCtorRetry (s.endpoints.getD (s.currentIndex % s.n) "") = none) :
    selectStep env now s =
      (.fallthrough
        { s with currentIndex := (s.currentIndex + 1) % s.n,
                 failures := s.failures.set (s.currentIndex % s.n) (some now) },
       [⟨s.endpoints.getD (s.currentIndex % s.n) "", false⟩]) := by
  simp only [selectStep]
  rw [hc, hf]
  simp only [List.getD_eq_getElem?_getD] at hh hr
  simp [hb, hh, hr]

end StepEquations

lemma SameConfig.refl (s : BalancerState) : SameConfig s s :=
  ⟨rfl, rfl, rfl, rfl, rfl⟩

lemma SameConfig.trans {s t u : BalancerState} (h1 : SameConfig s t)
    (h2 : SameConfig t u) : SameConfig s u := by
  obtain ⟨a1, b1, c1, d1, e1⟩ := h1
  obtain ⟨a2, b2, c2, d2, e2⟩ := h2
  exact ⟨a2.trans a1, b2.trans b1, c2.trans c1, d2.trans d1, e2.trans e1⟩

lemma SameConfig.n_eq {s s' : BalancerState} (h : SameConfig s s') :
    s'.n = s.n := by
  simp [BalancerState.n, h.1]

section StepFacts

variable (env : Env) (now : Int) (s : BalancerState)

/-- One loop iteration never changes the configuration and always advances the
cursor by exactly one modulo N, whatever its outcome. -/
lemma selectStep_config :
    SameConfig s ((selectStep env now s).1.state) ∧
    ((selectStep env now s).1.state).currentIndex = (s.currentIndex + 1) % s.n := by
  rcases hc : s.clients.getD (s.currentIndex % s.n) none with _ | c
  · rcases hf : s.failures.getD (s.currentIndex % s.n) none with _ | f
    · rw [selectStep_skip_noFailure env now s hc hf]
      exact ⟨⟨rfl, rfl, rfl, rfl, rfl⟩, rfl⟩
    · rcases le_or_lt s.retryBackoff (now - f) with hb | hb
      · cases hh : isServerHealthy env s.secure none
          (s.endpoints.getD (s.currentIndex % s.n) "")
        · rw [selectStep_retry_probeFail env now s hc hf hb hh]
          exact ⟨⟨rfl, rfl, rfl, rfl, List.length_set ..⟩, rfl⟩
        · rcases hr : env.minioCtorRetry (s.endpoints.getD (s.currentIndex % s.n) "")
            with _ | h
          · rw [selectStep_retry_ctorFail env now s hc hf hb hh hr]
            exact ⟨⟨rfl, rfl, rfl, rfl, List.length_set ..⟩, rfl⟩
          · rw [selectStep_retry_success env now s hc hf hb hh hr]
            exact ⟨⟨rfl, rfl, rfl, List.length_set .., List.length_set ..⟩, rfl⟩
      · rw [selectStep_skip_withinBackoff env now s hc hf hb]
        exact ⟨⟨rfl, rfl, rfl, rfl, rfl⟩, rfl⟩
  · cases hh : isServerHealthy env s.secure (some c)
      (s.endpoints.getD (s.currentIndex % s.n) "")
    · rw [selectStep_client_unhealthy env now s hc hh]
      refine ⟨⟨rfl, rfl, rfl, List.length_set .., ?_⟩, rfl⟩
      dsimp [StepOut.state]
      split <;> simp [List.length_set]
    · rw [selectStep_client_healthy env now s hc hh]
      exact ⟨⟨rfl, rfl, rfl, rfl, List.length_set ..⟩, rfl⟩

end StepFacts

section AuxFacts

variable {env : Env} {now : Int} {startIdx : Nat} {fuel : Nat}
variable {s s' : BalancerState} {ps : List Probe}

/-- Unfolding: a `return` from the loop body ends the call. -/
lemma getClientAux_eq_selected {i c : Nat}
    (hstep : selectStep env now s = (.selected i c s', ps)) :
    getClientAux env now startIdx (fuel + 1) s = ⟨some (i, c), s', 1, ps⟩ := by
  simp only [getClientAux]
  rw [hstep]

/-- Unfolding: the `continue` of the unhealthy-client branch recurses without
running the loop-detection guard. -/
lemma getClientAux_eq_skip
    (hstep : selectStep env now s = (.skipCheck s', ps)) :
    getClientAux env now startIdx (fuel + 1) s =
      ⟨(getClientAux env now startIdx fuel s').result,
       (getClientAux env now startIdx fuel s').state,
       (getClientAux env now startIdx fuel s').attempts + 1,
       ps ++ (getClientAux env now startIdx fuel s').probes⟩ := by
  simp only [getClientAux]
  rw [hstep]

/-- Unfolding: falling through to a firing loop-detection guard `break`s. -/
lemma getClientAux_eq_break
    (hstep : selectStep env now s = (.fallthrough s', ps))
    (hbr : s'.currentIndex = startIdx ∧ allRecent now s' = true) :
    getClientAux env now startIdx (fuel + 1) s = ⟨none, s', 1, ps⟩ := by
  simp only [getClientAux]
  rw [hstep]
  simp [hbr.1, hbr.2]

/-- Unfolding: falling through past a silent loop-detection guard recurses. -/
lemma getClientAux_eq_cont
    (hstep : selectStep env now s = (.fallthrough s', ps))
    (hbr : ¬(s'.currentIndex = startIdx ∧ allRecent now s' = true)) :
    getClientAux env now startIdx (fuel + 1) s =
      ⟨(getClientAux env now startIdx fuel s').result,
       (getClientAux env now startIdx fuel s').state,
       (getClientAux env now startIdx fuel s').attempts + 1,
       ps ++ (getClientAux env now startIdx fuel s').probes⟩ := by
  simp only [getClientAux]
  rw [hstep]
  simp only [if_neg hbr]

end AuxFacts

section LoopFacts

variable (env : Env) (now : Int) (startIdx : Nat)

/-- The selection loop preserves the configuration and runs at most `fuel`
iterations. -/
lemma getClientAux_config :
    ∀ fuel s, SameConfig s ((getClientAux env now startIdx fuel s).state) ∧
      (getClientAux env now startIdx fuel s).attempts ≤ fuel := by
  intro fuel
  induction fuel with
  | zero => intro s; exact ⟨SameConfig.refl s, Nat.le_refl 0⟩
  | succ fuel ih =>
    intro s
    have hconf := selectStep_config env now s
    rcases hstep : selectStep env now s with ⟨o, ps⟩
    rw [hstep] at hconf
    dsimp only [StepOut.state] at hconf
    cases o with
    | selected i c s' =>
      rw [getClientAux_eq_selected hstep]
      exact ⟨hconf.1, by dsimp; omega⟩
    | skipCheck s' =>
      rw [getClientAux_eq_skip hstep]
      exact ⟨hconf.1.trans (ih s').1, by have := (ih s').2; dsimp; omega⟩
    | fallthrough s' =>
      by_cases hbr : s'.currentIndex = startIdx ∧ allRecent now s' = true
      · rw [getClientAux_eq_break hstep hbr]
        exact ⟨hconf.1, by dsimp; omega⟩
      · rw [getClientAux_eq_cont hstep hbr]
        exact ⟨hconf.1.trans (ih s').1, by have := (ih s').2; dsimp; omega⟩

/-- The selection loop advances the cursor by exactly one modulo N per
iteration: afterwards the cursor equals the starting cursor plus the number of
iterations, modulo N, and is still a valid index. -/
lemma getClientAux_cursor :
    ∀ fuel s, 0 < s.n → s.currentIndex < s.n →
      ((getClientAux env now startIdx fuel s).state).currentIndex =
        (s.currentIndex + (getClientAux env now startIdx fuel s).attempts) % s.n ∧
      ((getClientAux env now startIdx fuel s).state).currentIndex < s.n := by
  intro fuel
  induction fuel with
  | zero =>
    intro s hn hcur
    exact ⟨by simp [getClientAux, Nat.mod_eq_of_lt hcur], by simpa [getClientAux] using hcur⟩
  | succ fuel ih =>
    intro s hn hcur
    have hconf := selectStep_config env now s
    rcases hstep : selectStep env now s with ⟨o, ps⟩
    rw [hstep] at hconf
    dsimp only [StepOut.state] at hconf
    cases o with
    | selected i c s' =>
      rw [getClientAux_eq_selected hstep]
      exact ⟨hconf.2, hconf.2 ▸ Nat.mod_lt _ hn⟩
    | skipCheck s' =>
      rw [getClientAux_eq_skip hstep]
      have hn' : 0 < s'.n := hconf.1.n_eq ▸ hn
      have hcur' : s'.currentIndex < s'.n := by
        rw [hconf.2, hconf.1.n_eq]; exact Nat.mod_lt _ hn
      have hih := ih s' hn' hcur'
      dsimp only
      refine ⟨?_, by rw [← hconf.1.n_eq]; exact hih.2⟩
      rw [hih.1, hconf.2, hconf.1.n_eq, Nat.mod_add_mod]
      exact congrArg (· % s.n) (by omega)
    | fallthrough s' =>
      by_cases hbr : s'.currentIndex = startIdx ∧ allRecent now s' = true
      · rw [getClientAux_eq_break hstep hbr]
        exact ⟨hconf.2, hconf.2 ▸ Nat.mod_lt _ hn⟩
      · rw [getClientAux_eq_cont hstep hbr]
        have hn' : 0 < s'.n := hconf.1.n_eq ▸ hn
        have hcur' : s'.currentIndex < s'.n := by
          rw [hconf.2, hconf.1.n_eq]; exact Nat.mod_lt _ hn
        have hih := ih s' hn' hcur'
        dsimp only
        refine ⟨?_, by rw [← hconf.1.n_eq]; exact hih.2⟩
        rw [hih.1, hconf.2, hconf.1.n_eq, Nat.mod_add_mod]
        exact congrArg (· % s.n) (by omega)

end LoopFacts

section InitFacts

lemma initBalancer_ok {env : Env} {eps : List String} {sec : Bool} {b t : Int}
    {s0 : BalancerState} (h : initBalancer env eps sec b t = .ok s0) :
    eps ≠ [] ∧
    s0 = ⟨eps, (eps.map (initEndpoint env sec t)).map Prod.fst,
          (eps.map (initEndpoint env sec t)).map Prod.snd, 0, b, sec⟩ ∧
    ¬((eps.map (initEndpoint env sec t)).map Prod.fst).all Option.isNone := by
  simp only [initBalancer] at h
  split at h
  · cases h
  · split at h
    · cases h
    · rename_i h1 h2
      cases h
      exact ⟨by simpa using h1, rfl, by simpa using h2⟩

lemma initBalancer_eq_noHealthy {env : Env} {eps : List String} {sec : Bool}
    {b t : Int} (h1 : eps ≠ [])
    (h2 : ((eps.map (initEndpoint env sec t)).map Prod.fst).all Option.isNone) :
    initBalancer env eps sec b t = .error .noHealthy := by
  simp only [initBalancer]
  rw [if_neg (by simpa using h1), if_pos h2]

lemma initBalancer_eq_ok {env : Env} {eps : List String} {sec : Bool} {b t : Int}
    (h1 : eps ≠ [])
    (h2 : ¬((eps.map (initEndpoint env sec t)).map Prod.fst).all Option.isNone) :
    initBalancer env eps sec b t =
      .ok ⟨eps, (eps.map (initEndpoint env sec t)).map Prod.fst,
           (eps.map (initEndpoint env sec t)).map Prod.snd, 0, b, sec⟩ := by
  simp only [initBalancer]
  rw [if_neg (by simpa using h1), if_neg h2]

end InitFacts

lemma getClient_eq_succ (env : Env) (now : Int) (s : BalancerState)
    (hn : 0 < s.n) :
    getClient env now s = getClientAux env now s.currentIndex (s.n - 1 + 1) s := by
  rw [getClient, if_neg (Nat.pos_iff_ne_zero.mp hn)]
  congr 1
  omega

/-- C4 (amended): with no existing connection, `_is_server_healthy` is healthy
iff the temporary client construction succeeds AND the liveness GET to
`<scheme>://<address>/minio/health/live` returns status 200; any construction
failure, connection error, timeout, or non-200 status yields unhealthy.
Contrary to the original claim, this path does construct a full storage
client, and a construction failure forces unhealthy even when the GET would
return 200. -/
theorem healthProbe_transport_spec (env : Env) (secure : Bool) (addr : String) :
    isServerHealthy env secure none addr = true ↔
      (env.minioCtorTemp addr).isSome ∧
        env.httpGet (healthUrl secure addr) = some 200 := by
  rcases hm : env.minioCtorTemp addr with _ | h <;>
    rcases hg : env.httpGet (healthUrl secure addr) with _ | st <;>
      simp [isServerHealthy, hm, hg]

/-- C4 (counterexample): in an environment where the temporary `Minio(...)`
construction raises but the liveness GET returns 200, the probe reports
unhealthy — refuting "healthy iff the GET returns 200" and "does not require
constructing a full storage client". -/
theorem healthProbe_claim_counterexample :
    envCtorFail.httpGet (healthUrl false "e0") = some 200 ∧
    isServerHealthy envCtorFail false none "e0" = false := by
  constructor
  · rfl
  · rfl

/-- C9: the cursor starts at 0 (a valid index, since N ≥ 1) after
construction; after any `get_client` call it is again in [0, N) and equals
the prior cursor plus the number of loop iterations, modulo N; and every
single loop iteration advances it by exactly one modulo N regardless of the
iteration's outcome. -/
theorem cursor_invariant :
    (∀ env eps secure backoff now s0,
      initBalancer env eps secure backoff now = Except.ok s0 →
        s0.currentIndex = 0 ∧ s0.currentIndex < s0.n) ∧
    (∀ env now s, 0 < s.n → s.currentIndex < s.n →
      (getClient env now s).state.currentIndex < s.n ∧
      (getClient env now s).state.currentIndex =
        (s.currentIndex + (getClient env now s).attempts) % s.n) ∧
    (∀ env now s,
      ((selectStep env now s).1.state).currentIndex = (s.currentIndex + 1) % s.n) := by
  refine ⟨?_, ?_, ?_⟩
  · intro env eps sec b t s0 h
    obtain ⟨hne, hs0, -⟩ := initBalancer_ok h
    subst hs0
    exact ⟨rfl, by simpa [BalancerState.n] using List.length_pos.mpr hne⟩
  · intro env now s hn hcur
    rw [getClient_eq_succ env now s hn]
    have hx := getClientAux_cursor env now s.currentIndex (s.n - 1 + 1) s hn hcur
    exact ⟨hx.2, hx.1⟩
  · intro env now s
    exact (selectStep_config env now s).2

/-- Witness for C9 at a concrete environment and state. -/
theorem cursor_invariant_witness :
    (getClient envAllOk 0 s3).state.currentIndex < s3.n :=
  (cursor_invariant.2.1 envAllOk 0 s3 (by decide) (by decide)).1

/-- C2: when the loop examines an endpoint whose connection is absent, a
health probe is performed iff its failure timestamp is set and
`now - last_failure >= unhealthy_retry_timedelta`; when the timestamp is unset
or the backoff has not elapsed, no probe at all is issued and the iteration
only advances the cursor. -/
theorem backoff_gating (env : Env) (now : Int) (s : BalancerState)
    (hc : s.clients.getD (s.currentIndex % s.n) none = none) :
    ((selectStep env now s).2 ≠ [] ↔
      ∃ f, s.failures.getD (s.currentIndex % s.n) none = some f ∧
        s.retryBackoff ≤ now - f) ∧
    ((∀ f, s.failures.getD (s.currentIndex % s.n) none = some f →
        now - f < s.retryBackoff) →
      selectStep env now s =
        (.fallthrough { s with currentIndex := (s.currentIndex + 1) % s.n }, [])) := by
  rcases hf : s.failures.getD (s.currentIndex % s.n) none with _ | f
  · refine ⟨?_, fun _ => selectStep_skip_noFailure env now s hc hf⟩
    rw [selectStep_skip_noFailure env now s hc hf]
    simp
  · rcases le_or_lt s.retryBackoff (now - f) with hb | hb
    · constructor
      · cases hh : isServerHealthy env s.secure none
          (s.endpoints.getD (s.currentIndex % s.n) "")
        · rw [selectStep_retry_probeFail env now s hc hf hb hh]
          simpa using hb
        · rcases hr : env.minioCtorRetry (s.endpoints.getD (s.currentIndex % s.n) "")
            with _ | h
          · rw [selectStep_retry_ctorFail env now s hc hf hb hh hr]
            simpa using hb
          · rw [selectStep_retry_success env now s hc hf hb hh hr]
            simpa using hb
      · intro hcon
        exact absurd (hcon f rfl) (not_lt.mpr hb)
    · refine ⟨?_, fun _ => selectStep_skip_withinBackoff env now s hc hf hb⟩
      rw [selectStep_skip_withinBackoff env now s hc hf hb]
      simp only [ne_eq, not_true_eq_false, false_iff, not_exists, not_and]
      rintro f' hf' hb'
      cases hf'
      exact absurd hb' (not_le.mpr hb)

/-- Witness for C2: a freshly failed endpoint (failure at 0, backoff 10,
probed at 3) is skipped without probing. -/
theorem backoff_gating_witness :
    ((selectStep envAllOk 3 s1down).2 ≠ [] ↔
      ∃ f, s1down.failures.getD (s1down.currentIndex % s1down.n) none = some f ∧
        s1down.retryBackoff ≤ 3 - f) :=
  (backoff_gating envAllOk 3 s1down (by decide)).1

/-- C7: when an endpoint holding a connection fails its probe, the iteration
does not return it, discards the connection, and sets `failures[i] = now` only
if no failure timestamp was already recorded (otherwise the original timestamp
is preserved); scanning continues. -/
theorem first_failure_preserved (env : Env) (now : Int) (s : BalancerState)
    {c : Nat} (hn : 0 < s.n) (hwf : WF s)
    (hc : s.clients.getD (s.currentIndex % s.n) none = some c)
    (hh : isServerHealthy env s.secure (some c)
      (s.endpoints.getD (s.currentIndex % s.n) "") = false) :
    (selectStep env now s).1.isSelected = false ∧
    ((selectStep env now s).1.state).clients.getD (s.currentIndex % s.n) none
      = none ∧
    ((selectStep env now s).1.state).failures.getD (s.currentIndex % s.n) none
      = (if (s.failures.getD (s.currentIndex % s.n) none).isNone then some now
         else s.failures.getD (s.currentIndex % s.n) none) := by
  have hi : s.currentIndex % s.n < s.n := Nat.mod_lt _ hn
  rw [selectStep_client_unhealthy env now s hc hh]
  refine ⟨rfl, ?_, ?_⟩
  · exact getD_set_self _ _ _ _ (by rw [hwf.1]; exact hi)
  · dsimp only [StepOut.state]
    split
    · exact getD_set_self _ _ _ _ (by rw [hwf.2]; exact hi)
    · rfl

/-- Witness for C7 at a concrete state with one connected endpoint whose
probe fails. -/
theorem first_failure_preserved_witness :
    (selectStep envAllDown 5 s1up).1.isSelected = false ∧
    ((selectStep envAllDown 5 s1up).1.state).clients.getD
      (s1up.currentIndex % s1up.n) none = none ∧
    ((selectStep envAllDown 5 s1up).1.state).failures.getD
      (s1up.currentIndex % s1up.n) none
      = (if (s1up.failures.getD (s1up.currentIndex % s1up.n) none).isNone
         then some 5 else s1up.failures.getD (s1up.currentIndex % s1up.n) none) :=
  first_failure_preserved envAllDown 5 s1up (c := 4) (by decide)
    ⟨rfl, rfl⟩ (by decide) (by decide)

/-- C8: on the recovery path (connection absent, failure past backoff), if the
transport re-probe fails, or it succeeds but constructing the fresh client
raises, the iteration sets `failures[i] = now` — restarting the backoff
window — and does not return this endpoint. -/
theorem retry_failure_clock_reset (env : Env) (now : Int) (s : BalancerState)
    {f : Int} (hn : 0 < s.n) (hwf : WF s)
    (hc : s.clients.getD (s.currentIndex % s.n) none = none)
    (hf : s.failures.getD (s.currentIndex % s.n) none = some f)
    (hb : s.retryBackoff ≤ now - f)
    (hcase : isServerHealthy env s.secure none
        (s.endpoints.getD (s.currentIndex % s.n) "") = false ∨
      (isServerHealthy env s.secure none
        (s.endpoints.getD (s.currentIndex % s.n) "") = true ∧
       env.minioCtorRetry (s.endpoints.getD (s.currentIndex % s.n) "") = none)) :
    (selectStep env now s).1.isSelected = false ∧
    ((selectStep env now s).1.state).failures.getD (s.currentIndex % s.n) none
      = some now := by
  have hi : s.currentIndex % s.n < s.n := Nat.mod_lt _ hn
  rcases hcase with hh | ⟨hh, hr⟩
  · rw [selectStep_retry_probeFail env now s hc hf hb hh]
    exact ⟨rfl, getD_set_self _ _ _ _ (by rw [hwf.2]; exact hi)⟩
  · rw [selectStep_retry_ctorFail env now s hc hf hb hh hr]
    exact ⟨rfl, getD_set_self _ _ _ _ (by rw [hwf.2]; exact hi)⟩

/-- Witness for C8: failed endpoint past backoff whose re-probe fails at
time 12 gets its failure timestamp reset to 12. -/
theorem retry_failure_clock_reset_witness :
    (selectStep envAllDown 12 s1down).1.isSelected = false ∧
    ((selectStep envAllDown 12 s1down).1.state).failures.getD
      (s1down.currentIndex % s1down.n) none = some 12 :=
  retry_failure_clock_reset envAllDown 12 s1down (f := 0) (by decide)
    ⟨rfl, rfl⟩ (by decide) (by decide) (by decide) (Or.inl (by decide))

lemma getD_eq_getElem {α : Type _} (l : List α) (i : Nat) (d : α)
    (h : i < l.length) : l.getD i d = l[i] := by
  simp [List.getD, List.getElem?_eq_getElem h]

/-- C5: construction fails with `ValueError` (the spec's `ConfigurationError`)
on an empty endpoint list; fails with the no-healthy-servers `Exception` (the
spec's `NoHealthyEndpointsError`) when after initialization every endpoint's
connection is absent; and otherwise succeeds with at least one endpoint
holding a connection handle. -/
theorem construction_errors (env : Env) (eps : List String) (secure : Bool)
    (backoff now : Int) :
    (eps = [] →
      initBalancer env eps secure backoff now = .error .configError) ∧
    (eps ≠ [] →
      ((eps.map (initEndpoint env secure now)).map Prod.fst).all Option.isNone →
      initBalancer env eps secure backoff now = .error .noHealthy) ∧
    (eps ≠ [] →
      ¬((eps.map (initEndpoint env secure now)).map Prod.fst).all Option.isNone →
      ∃ s0, initBalancer env eps secure backoff now = .ok s0 ∧
        ∃ i, i < s0.n ∧ (s0.clients.getD i none).isSome) := by
  refine ⟨?_, ?_, ?_⟩
  · rintro rfl
    rfl
  · intro hne hall
    exact initBalancer_eq_noHealthy hne hall
  · intro hne hnall
    refine ⟨_, initBalancer_eq_ok hne hnall, ?_⟩
    have hx : ∃ x ∈ (eps.map (initEndpoint env secure now)).map Prod.fst,
        ¬(Option.isNone x = true) := by
      simpa [List.all_eq_true] using hnall
    obtain ⟨x, hmem, hxn⟩ := hx
    obtain ⟨i, hi, hget⟩ := List.mem_iff_getElem.mp hmem
    refine ⟨i, ?_, ?_⟩
    · simpa [BalancerState.n] using hi
    · rw [getD_eq_getElem _ _ _ (by simpa using hi), hget]
      simpa [Option.isSome_iff_ne_none, Option.isNone_iff_eq_none] using hxn

/-- Witness for C5: with one reachable endpoint, construction succeeds and a
connection is stored. -/
theorem construction_errors_witness :
    ∃ s0, initBalancer envAllOk ["e0"] false 10 0 = .ok s0 ∧
      ∃ i, i < s0.n ∧ (s0.clients.getD i none).isSome :=
  (construction_errors envAllOk ["e0"] false 10 0).2.2 (by decide) (by decide)

/-- C6: whenever the scan reaches an endpoint with no connection whose
failure timestamp is past the backoff window, whose transport re-probe
succeeds and whose fresh client construction succeeds, that iteration
immediately ends the call returning the endpoint's index with the new client,
stores the client in the endpoint's slot and clears its failure timestamp; in
particular a `get_client` call whose first examined endpoint satisfies these
conditions returns it. -/
theorem recovery_immediate (env : Env) (now : Int) (startIdx fuel : Nat)
    (s : BalancerState) {f : Int} {h : Nat} (hn : 0 < s.n) (hwf : WF s)
    (hc : s.clients.getD (s.currentIndex % s.n) none = none)
    (hf : s.failures.getD (s.currentIndex % s.n) none = some f)
    (hb : s.retryBackoff ≤ now - f)
    (hh : isServerHealthy env s.secure none
      (s.endpoints.getD (s.currentIndex % s.n) "") = true)
    (hr : env.minioCtorRetry (s.endpoints.getD (s.currentIndex % s.n) "")
      = some h) :
    ((getClientAux env now startIdx (fuel + 1) s).result
        = some (s.currentIndex % s.n, h) ∧
      (getClientAux env now startIdx (fuel + 1) s).attempts = 1 ∧
      ((getClientAux env now startIdx (fuel + 1) s).state).clients.getD
        (s.currentIndex % s.n) none = some h ∧
      ((getClientAux env now startIdx (fuel + 1) s).state).failures.getD
        (s.currentIndex % s.n) none = none) ∧
    (getClient env now s).result = some (s.currentIndex % s.n, h) := by
  have hi : s.currentIndex % s.n < s.n := Nat.mod_lt _ hn
  have hstep := selectStep_retry_success env now s hc hf hb hh hr
  constructor
  · rw [getClientAux_eq_selected hstep]
    refine ⟨rfl, rfl, ?_, ?_⟩
    · exact getD_set_self _ _ _ _ (by rw [hwf.1]; exact hi)
    · exact getD_set_self _ _ _ _ (by rw [hwf.2]; exact hi)
  · rw [getClient_eq_succ env now s hn, getClientAux_eq_selected hstep]

/-- Witness for C6: a failed endpoint past its backoff window whose re-probe
and reconstruction succeed is returned immediately. -/
theorem recovery_immediate_witness :
    (getClient envAllOk 12 s1down).result
      = some (s1down.currentIndex % s1down.n, 3) :=
  (recovery_immediate envAllOk 12 0 0 s1down (f := 0) (h := 3) (by decide)
    ⟨rfl, rfl⟩ (by decide) (by decide) (by decide) (by decide) (by decide)).2

lemma selectStep_not_selected_of_probes_fail (env : Env) (now : Int)
    {s : BalancerState}
    (hfail : ∀ c addr, isServerHealthy env s.secure c addr = false) :
    (selectStep env now s).1.isSelected = false := by
  rcases hc : s.clients.getD (s.currentIndex % s.n) none with _ | c
  · rcases hf : s.failures.getD (s.currentIndex % s.n) none with _ | f
    · rw [selectStep_skip_noFailure env now s hc hf]; rfl
    · rcases le_or_lt s.retryBackoff (now - f) with hb | hb
      · rw [selectStep_retry_probeFail env now s hc hf hb (hfail none _)]; rfl
      · rw [selectStep_skip_withinBackoff env now s hc hf hb]; rfl
  · rw [selectStep_client_unhealthy env now s hc (hfail (some c) _)]; rfl

lemma getClientAux_none_of_probes_fail (env : Env) (now : Int) (startIdx : Nat) :
    ∀ fuel s, (∀ c addr, isServerHealthy env s.secure c addr = false) →
      (getClientAux env now startIdx fuel s).result = none := by
  intro fuel
  induction fuel with
  | zero => intro s _; rfl
  | succ fuel ih =>
    intro s hfail
    have hns := selectStep_not_selected_of_probes_fail env now hfail
    have hconf := selectStep_config env now s
    rcases hstep : selectStep env now s with ⟨o, ps⟩
    rw [hstep] at hns hconf
    dsimp only [StepOut.state] at hconf
    cases o with
    | selected i c s' => simp [StepOut.isSelected] at hns
    | skipCheck s' =>
      rw [getClientAux_eq_skip hstep]
      exact ih s' (by intro c addr; rw [hconf.1.2.1]; exact hfail c addr)
    | fallthrough s' =>
      by_cases hbr : s'.currentIndex = startIdx ∧ allRecent now s' = true
      · rw [getClientAux_eq_break hstep hbr]
      · rw [getClientAux_eq_cont hstep hbr]
        exact ih s' (by intro c addr; rw [hconf.1.2.1]; exact hfail c addr)

lemma getClientAux_none_of_allWithinBackoff (env : Env) (now : Int)
    (startIdx : Nat) :
    ∀ fuel s, 0 < s.n →
      (∀ i, i < s.n → s.clients.getD i none = none ∧
        ∃ f, s.failures.getD i none = some f ∧ now - f < s.retryBackoff) →
      (getClientAux env now startIdx fuel s).result = none := by
  intro fuel
  induction fuel with
  | zero => intro s _ _; rfl
  | succ fuel ih =>
    intro s hn hall
    have hi : s.currentIndex % s.n < s.n := Nat.mod_lt _ hn
    obtain ⟨hc, f, hf, hb⟩ := hall _ hi
    have hstep := selectStep_skip_withinBackoff env now s hc hf hb
    by_cases hbr :
      ({ s with currentIndex := (s.currentIndex + 1) % s.n } :
        BalancerState).currentIndex = startIdx ∧
      allRecent now { s with currentIndex := (s.currentIndex + 1) % s.n } = true
    · rw [getClientAux_eq_break hstep hbr]
    · rw [getClientAux_eq_cont hstep hbr]
      exact ih _ hn hall

/-- C3: a `get_client` call runs at most N loop iterations, and when no
endpoint can produce a healthy outcome — every health probe of the
environment fails, or every endpoint is connection-less with a failure
timestamp still within its backoff window — it returns the `(None, None)`
sentinel.  The embedded function is total by construction, mirroring that
`get_client` absorbs every per-endpoint exception. -/
theorem select_exhaustion (env : Env) (now : Int) (s : BalancerState) :
    (getClient env now s).attempts ≤ s.n ∧
    (((∀ c addr, isServerHealthy env s.secure c addr = false) ∨
      (∀ i, i < s.n → s.clients.getD i none = none ∧
        ∃ f, s.failures.getD i none = some f ∧ now - f < s.retryBackoff)) →
      (getClient env now s).result = none) := by
  constructor
  · by_cases hn : s.n = 0
    · rw [getClient, if_pos hn]
      exact Nat.zero_le _
    · rw [getClient, if_neg hn]
      exact (getClientAux_config env now s.currentIndex s.n s).2
  · intro hcase
    by_cases hn : s.n = 0
    · rw [getClient, if_pos hn]
    · rw [getClient, if_neg hn]
      rcases hcase with hfail | hall
      · exact getClientAux_none_of_probes_fail env now s.currentIndex s.n s hfail
      · exact getClientAux_none_of_allWithinBackoff env now s.currentIndex s.n s
          (Nat.pos_of_ne_zero hn) hall

/-- Witness for C3: with every external call failing, `get_client` returns
the none sentinel. -/
theorem select_exhaustion_witness :
    (getClient envAllDown 3 s1down).result = none :=
  (select_exhaustion envAllDown 3 s1down).2
    (Or.inl (by intro c addr; cases c <;> rfl))

lemma SameConfig.wf {s s' : BalancerState} (h : SameConfig s s') (hwf : WF s) :
    WF s' := by
  constructor
  · rw [h.2.2.2.1, hwf.1, h.n_eq]
  · rw [h.2.2.2.2, hwf.2, h.n_eq]

lemma initEndpoint_excl (env : Env) (sec : Bool) (now : Int) (a : String) :
    ((initEndpoint env sec now a).1).isSome ↔
      (initEndpoint env sec now a).2 = none := by
  rcases hm : env.minioCtorInit a with _ | h
  · simp [initEndpoint, hm]
  · by_cases hh : isServerHealthy env sec (some h) a = true
    · simp [initEndpoint, hm, hh]
    · simp [initEndpoint, hm, hh]

lemma selectStep_excl (env : Env) (now : Int) {s : BalancerState}
    (hn : 0 < s.n) (hwf : WF s) (hx : Excl s) :
    Excl ((selectStep env now s).1.state) := by
  have hi : s.currentIndex % s.n < s.n := Nat.mod_lt _ hn
  have hic : s.currentIndex % s.n < s.clients.length := by rw [hwf.1]; exact hi
  have hif : s.currentIndex % s.n < s.failures.length := by rw [hwf.2]; exact hi
  rcases hc : s.clients.getD (s.currentIndex % s.n) none with _ | c
  · rcases hf : s.failures.getD (s.currentIndex % s.n) none with _ | f
    · rw [selectStep_skip_noFailure env now s hc hf]
      exact hx
    · rcases le_or_lt s.retryBackoff (now - f) with hb | hb
      · cases hh : isServerHealthy env s.secure none
          (s.endpoints.getD (s.currentIndex % s.n) "")
        · rw [selectStep_retry_probeFail env now s hc hf hb hh]
          intro j hj
          dsimp only [StepOut.state]
          by_cases hji : j = s.currentIndex % s.n
          · subst hji
            rw [getD_set_self _ _ _ _ hif, hc]
            simp
          · rw [getD_set_ne _ _ _ (Ne.symm hji)]
            exact hx j hj
        · rcases hr : env.minioCtorRetry (s.endpoints.getD (s.currentIndex % s.n) "")
            with _ | h
          · rw [selectStep_retry_ctorFail env now s hc hf hb hh hr]
            intro j hj
            dsimp only [StepOut.state]
            by_cases hji : j = s.currentIndex % s.n
            · subst hji
              rw [getD_set_self _ _ _ _ hif, hc]
              simp
            · rw [getD_set_ne _ _ _ (Ne.symm hji)]
              exact hx j hj
          · rw [selectStep_retry_success env now s hc hf hb hh hr]
            intro j hj
            dsimp only [StepOut.state]
            by_cases hji : j = s.currentIndex % s.n
            · subst hji
              rw [getD_set_self _ _ _ _ hic, getD_set_self _ _ _ _ hif]
              simp
            · rw [getD_set_ne _ _ _ (Ne.symm hji), getD_set_ne _ _ _ (Ne.symm hji)]
              exact hx j hj
      · rw [selectStep_skip_withinBackoff env now s hc hf hb]
        exact hx
  · have hfn : s.failures.getD (s.currentIndex % s.n) none = none :=
      (hx _ hi).mp (by rw [hc]; rfl)
    cases hh : isServerHealthy env s.secure (some c)
      (s.endpoints.getD (s.currentIndex % s.n) "")
    · rw [selectStep_client_unhealthy env now s hc hh]
      intro j hj
      dsimp only [StepOut.state]
      rw [if_pos (by rw [hfn]; rfl)]
      by_cases hji : j = s.currentIndex % s.n
      · subst hji
        rw [getD_set_self _ _ _ _ hic, getD_set_self _ _ _ _ hif]
        simp
      · rw [getD_set_ne _ _ _ (Ne.symm hji), getD_set_ne _ _ _ (Ne.symm hji)]
        exact hx j hj
    · rw [selectStep_client_healthy env now s hc hh]
      intro j hj
      dsimp only [StepOut.state]
      by_cases hji : j = s.currentIndex % s.n
      · subst hji
        rw [hc, getD_set_self _ _ _ _ hif]
        simp
      · rw [getD_set_ne _ _ _ (Ne.symm hji)]
        exact hx j hj

lemma getClientAux_excl (env : Env) (now : Int) (startIdx : Nat) :
    ∀ fuel s, 0 < s.n → WF s → Excl s →
      Excl (getClientAux env now startIdx fuel s).state := by
  intro fuel
  induction fuel with
  | zero => intro s _ _ hx; exact hx
  | succ fuel ih =>
    intro s hn hwf hx
    have hconf := selectStep_config env now s
    have hxs := selectStep_excl env now hn hwf hx
    rcases hstep : selectStep env now s with ⟨o, ps⟩
    rw [hstep] at hconf hxs
    dsimp only [StepOut.state] at hconf hxs
    cases o with
    | selected i c s' =>
      rw [getClientAux_eq_selected hstep]
      exact hxs
    | skipCheck s' =>
      rw [getClientAux_eq_skip hstep]
      exact ih s' (hconf.1.n_eq ▸ hn) (hconf.1.wf hwf) hxs
    | fallthrough s' =>
      by_cases hbr : s'.currentIndex = startIdx ∧ allRecent now s' = true
      · rw [getClientAux_eq_break hstep hbr]
        exact hxs
      · rw [getClientAux_eq_cont hstep hbr]
        exact ih s' (hconf.1.n_eq ▸ hn) (hconf.1.wf hwf) hxs

/-- C10: after construction and after every `get_client` call, at every
endpoint index exactly one of `clients[i]` and `failures[i]` is `None` (the
connection handle is present iff the failure timestamp is absent); in
particular the connection-absent/failure-unset combination is unreachable. -/
theorem health_state_exclusivity :
    (∀ env eps secure backoff now s0,
      initBalancer env eps secure backoff now = Except.ok s0 →
        Excl s0 ∧ WF s0) ∧
    (∀ env now s, WF s → Excl s → Excl (getClient env now s).state) := by
  constructor
  · intro env eps sec b t s0 h
    obtain ⟨hne, hs0, -⟩ := initBalancer_ok h
    subst hs0
    constructor
    · intro i hi
      have hie : i < eps.length := by simpa [BalancerState.n] using hi
      dsimp only
      rw [getD_eq_getElem _ _ _ (by simpa using hie),
        getD_eq_getElem _ _ _ (by simpa using hie)]
      simp only [List.getElem_map]
      exact initEndpoint_excl env sec t eps[i]
    · exact ⟨by simp [BalancerState.n], by simp [BalancerState.n]⟩
  · intro env now s hwf hx
    by_cases hn : s.n = 0
    · rw [getClient, if_pos hn]
      exact hx
    · rw [getClient, if_neg hn]
      exact getClientAux_excl env now s.currentIndex s.n s
        (Nat.pos_of_ne_zero hn) hwf hx

/-- Witness for C10 at a concrete state and environment. -/
theorem health_state_exclusivity_witness :
    Excl (getClient envAllOk 0 s3).state :=
  health_state_exclusivity.2 envAllOk 0 s3 ⟨rfl, rfl⟩
    (by unfold Excl; decide)

lemma getClient_all_healthy (env : Env) (now : Int) (s : BalancerState)
    (hn : 0 < s.n) (hcur : s.currentIndex < s.n) {c : Nat}
    (hc : s.clients.getD s.currentIndex none = some c)
    (hp : env.listBuckets (s.endpoints.getD s.currentIndex "") = true) :
    getClient env now s = ⟨some (s.currentIndex, c),
      { s with currentIndex := (s.currentIndex + 1) % s.n,
               failures := s.failures.set s.currentIndex none }, 1,
      [⟨s.endpoints.getD s.currentIndex "", true⟩]⟩ := by
  have hmod : s.currentIndex % s.n = s.currentIndex := Nat.mod_eq_of_lt hcur
  have hc' : s.clients.getD (s.currentIndex % s.n) none = some c := by
    rw [hmod]; exact hc
  have hh : isServerHealthy env s.secure (some c)
      (s.endpoints.getD (s.currentIndex % s.n) "") = true := by
    rw [hmod]
    simpa [isServerHealthy] using hp
  rw [getClient_eq_succ env now s hn,
    getClientAux_eq_selected (selectStep_client_healthy env now s hc' hh)]
  rw [hmod]

/-- C1: for a balancer whose N endpoints all hold connections and whose
probes all succeed, the k-th of N consecutive `get_client` calls returns
index `(cursor + k) % N` where `cursor` is the cursor before the first call;
over `k = 0 .. N-1` these indices are pairwise distinct and cover every index
in `[0, N)`, so each index is returned exactly once, in cyclic ascending
order. -/
theorem round_robin_fairness (env : Env) (now : Int) (s : BalancerState)
    (hn : 0 < s.n) (hcur : s.currentIndex < s.n)
    (hcl : ∀ i, i < s.n → (s.clients.getD i none).isSome)
    (hpr : ∀ i, i < s.n → env.listBuckets (s.endpoints.getD i "") = true) :
    (∀ k, k < s.n → ∃ c, (getClient env now (iterSelect env now s k)).result =
        some ((s.currentIndex + k) % s.n, c)) ∧
    (∀ j l, j < s.n → l < s.n →
      (s.currentIndex + j) % s.n = (s.currentIndex + l) % s.n → j = l) ∧
    (∀ j, j < s.n → ∃ k, k < s.n ∧ (s.currentIndex + k) % s.n = j) := by
  have hinv : ∀ k, (iterSelect env now s k).endpoints = s.endpoints ∧
      (iterSelect env now s k).clients = s.clients ∧
      (iterSelect env now s k).currentIndex = (s.currentIndex + k) % s.n := by
    intro k
    induction k with
    | zero => exact ⟨rfl, rfl, (Nat.mod_eq_of_lt hcur).symm⟩
    | succ k ih =>
      obtain ⟨he, hcli, hcu⟩ := ih
      have hnk : (iterSelect env now s k).n = s.n := by
        unfold BalancerState.n
        rw [he]
      have hcurk : (iterSelect env now s k).currentIndex
          < (iterSelect env now s k).n := by
        rw [hcu, hnk]; exact Nat.mod_lt _ hn
      have hck := Option.isSome_iff_exists.mp
        (by rw [hcli, hcu]; exact hcl _ (Nat.mod_lt _ hn) :
          ((iterSelect env now s k).clients.getD
            (iterSelect env now s k).currentIndex none).isSome)
      obtain ⟨c, hc⟩ := hck
      have hpk : env.listBuckets ((iterSelect env now s k).endpoints.getD
          (iterSelect env now s k).currentIndex "") = true := by
        rw [he, hcu]; exact hpr _ (Nat.mod_lt _ hn)
      have hcall := getClient_all_healthy env now (iterSelect env now s k)
        (by rw [hnk]; exact hn) hcurk hc hpk
      simp only [iterSelect, hcall]
      refine ⟨he, hcli, ?_⟩
      dsimp only
      rw [hcu, hnk, Nat.mod_add_mod]
      exact congrArg (· % s.n) (by omega)
  constructor
  · intro k hk
    obtain ⟨he, hcli, hcu⟩ := hinv k
    have hnk : (iterSelect env now s k).n = s.n := by
      unfold BalancerState.n
      rw [he]
    have hcurk : (iterSelect env now s k).currentIndex
        < (iterSelect env now s k).n := by
      rw [hcu, hnk]; exact Nat.mod_lt _ hn
    have hck := Option.isSome_iff_exists.mp
      (by rw [hcli, hcu]; exact hcl _ (Nat.mod_lt _ hn) :
        ((iterSelect env now s k).clients.getD
          (iterSelect env now s k).currentIndex none).isSome)
    obtain ⟨c, hc⟩ := hck
    have hpk : env.listBuckets ((iterSelect env now s k).endpoints.getD
        (iterSelect env now s k).currentIndex "") = true := by
      rw [he, hcu]; exact hpr _ (Nat.mod_lt _ hn)
    have hcall := getClient_all_healthy env now (iterSelect env now s k)
      (by rw [hnk]; exact hn) hcurk hc hpk
    refine ⟨c, ?_⟩
    rw [hcall]
    dsimp only
    rw [hcu]
  constructor
  · intro j l hj hl heq
    have h2 := Nat.ModEq.add_left_cancel' s.currentIndex (heq : _)
    have h3 : j % s.n = l % s.n := h2
    rwa [Nat.mod_eq_of_lt hj, Nat.mod_eq_of_lt hl] at h3
  · intro j hj
    rcases le_or_lt s.currentIndex j with hcj | hcj
    · refine ⟨j - s.currentIndex, by omega, ?_⟩
      have hadd : s.currentIndex + (j - s.currentIndex) = j := by omega
      rw [hadd, Nat.mod_eq_of_lt hj]
    · refine ⟨j + s.n - s.currentIndex, by omega, ?_⟩
      have hadd : s.currentIndex + (j + s.n - s.currentIndex) = j + s.n := by
        omega
      rw [hadd, Nat.add_mod_right, Nat.mod_eq_of_lt hj]

/-- Witness for C1: three healthy endpoints, cursor 0 — the first call
returns index 0. -/
theorem round_robin_fairness_witness :
    ∃ c, (getClient envAllOk 0 (iterSelect envAllOk 0 s3 0)).result =
      some ((s3.currentIndex + 0) % s3.n, c) :=
  (round_robin_fairness envAllOk 0 s3 (by decide) (by decide)
    (by decide) (by decide)).1 0 (by decide)

end MC
